import Mathlib

/-!
Verification of the `slzb-otbr` border-router manager
(`scripts/otbr_manager.py`, with `scripts/mdns_publisher.py` as the
sibling standalone publisher).

The development shallowly embeds the Python code: Python strings are
Lean `String`s manipulated through `List Char` helpers mirroring the
`str` methods the scripts use, byte strings are `List Nat`
(each entry < 256), Python dicts keyed by TLV tag become insertion-order
association lists with in-place overwrite (`dictInsert`), and the side
effects of a reconciliation cycle (mDNS register / unregister, kernel
route commands) are reified as explicit effect values returned by the
embedded functions.  External collaborators (`socket.inet_pton`, the
zeroconf responder) are parameters of the embedding, per the spec's
interface boundary.
-/

namespace Otbr

/-! ## Python string primitives, modelled on `List Char` -/

/-- Python `sub in s` (substring containment) for char lists. -/
def hasSub (pat : List Char) : List Char → Bool
  | [] => pat.isEmpty
  | c :: rest => pat.isPrefixOf (c :: rest) || hasSub pat rest

/-- Python `pat in s` on strings. -/
def containsSub (s pat : String) : Bool :=
  hasSub pat.data s.data

/-- Python `s.lower()` (the scripts only feed it ASCII). -/
def pyLower (s : String) : String :=
  ⟨s.data.map Char.toLower⟩

/-- Python `s.endswith(pat)`. -/
def pyEndsWith (s pat : String) : Bool :=
  pat.data.isSuffixOf s.data

/-- Python `s.startswith(pat)`. -/
def pyStartsWith (s pat : String) : Bool :=
  pat.data.isPrefixOf s.data

/-- One fuel-indexed step list for Python `s.replace(pat, rep)`:
non-overlapping left-to-right replacement.  The fuel is one unit per
consumed character; `s.length` units always suffice. -/
def replaceSeqGo (pat rep : List Char) : Nat → List Char → List Char
  | _, [] => []
  | 0, s => s
  | fuel + 1, c :: rest =>
    if pat ≠ [] ∧ pat.isPrefixOf (c :: rest) then
      rep ++ replaceSeqGo pat rep fuel (rest.drop (pat.length - 1))
    else
      c :: replaceSeqGo pat rep fuel rest

/-- Python `s.replace(pat, rep)` (for the non-empty patterns the code uses). -/
def pyReplace (s pat rep : String) : String :=
  ⟨replaceSeqGo pat.data rep.data s.data.length s.data⟩

/-- Worker for Python `s.split()` (split on whitespace runs, drop empties);
`cur` is the current token, reversed. -/
def wsTokensGo (cur : List Char) : List Char → List (List Char)
  | [] => if cur = [] then [] else [cur.reverse]
  | c :: rest =>
    if c.isWhitespace then
      if cur = [] then wsTokensGo [] rest else cur.reverse :: wsTokensGo [] rest
    else
      wsTokensGo (c :: cur) rest

/-- Python `s.split()` with no separator argument. -/
def pySplitWs (s : String) : List String :=
  (wsTokensGo [] s.data).map (fun l => (⟨l⟩ : String))

/-- Split a char list on a separator character, keeping empty pieces. -/
def splitChGo (sep : Char) (cur : List Char) : List Char → List (List Char)
  | [] => [cur.reverse]
  | c :: rest =>
    if c = sep then cur.reverse :: splitChGo sep [] rest
    else splitChGo sep (c :: cur) rest

/-- Python `s.splitlines()` for `\n`-separated text: split on `\n`,
dropping the trailing empty piece a final newline would produce. -/
def pySplitLines (s : String) : List String :=
  let ls := (splitChGo '\n' [] s.data).map (fun l => (⟨l⟩ : String))
  match ls.getLast? with
  | some "" => ls.dropLast
  | _ => ls

/-- Python `s.strip()`. -/
def pyStrip (s : String) : String :=
  ⟨((s.data.dropWhile Char.isWhitespace).reverse.dropWhile Char.isWhitespace).reverse⟩

/-- Hex digit value, as accepted by Python `bytes.fromhex` / `int(_, 16)`. -/
def hexDigitVal? (c : Char) : Option Nat :=
  if '0' ≤ c ∧ c ≤ '9' then some (c.toNat - '0'.toNat)
  else if 'a' ≤ c ∧ c ≤ 'f' then some (c.toNat - 'a'.toNat + 10)
  else if 'A' ≤ c ∧ c ≤ 'F' then some (c.toNat - 'A'.toNat + 10)
  else none

/-- Decode an even run of hex digits into bytes. -/
def hexPairs : List Char → Option (List Nat)
  | [] => some []
  | [_] => none
  | c1 :: c2 :: rest =>
    match hexDigitVal? c1, hexDigitVal? c2 with
    | some h, some l => (hexPairs rest).map (fun bs => (16 * h + l) :: bs)
    | _, _ => none

/-- Python `bytes.fromhex(s)` (the inputs handled here carry no inner
whitespace, so whitespace skipping is not modelled); `none` models the
`ValueError` the callers catch. -/
def pyFromHex (s : String) : Option (List Nat) :=
  hexPairs s.data

/-- Strict UTF-8 decoding of a byte list, as Python `bytes.decode('utf-8')`:
rejects stray continuation bytes, overlong forms, surrogates and
out-of-range code points; `none` models `UnicodeDecodeError`. -/
def utf8DecodeL : List Nat → Option (List Char)
  | [] => some []
  | b :: rest =>
    if b < 0x80 then (utf8DecodeL rest).map (fun cs => Char.ofNat b :: cs)
    else if b < 0xC2 then none
    else if b < 0xE0 then
      match rest with
      | c1 :: rest1 =>
        if 0x80 ≤ c1 ∧ c1 < 0xC0 then
          (utf8DecodeL rest1).map (fun cs => Char.ofNat ((b - 0xC0) * 64 + (c1 - 0x80)) :: cs)
        else none
      | [] => none
    else if b < 0xF0 then
      match rest with
      | c1 :: c2 :: rest2 =>
        let lo1 := if b = 0xE0 then 0xA0 else 0x80
        let hi1 := if b = 0xED then 0xA0 else 0xC0
        if lo1 ≤ c1 ∧ c1 < hi1 ∧ 0x80 ≤ c2 ∧ c2 < 0xC0 then
          (utf8DecodeL rest2).map
            (fun cs => Char.ofNat ((b - 0xE0) * 4096 + (c1 - 0x80) * 64 + (c2 - 0x80)) :: cs)
        else none
      | _ => none
    else if b < 0xF5 then
      match rest with
      | c1 :: c2 :: c3 :: rest3 =>
        let lo1 := if b = 0xF0 then 0x90 else 0x80
        let hi1 := if b = 0xF4 then 0x90 else 0xC0
        if lo1 ≤ c1 ∧ c1 < hi1 ∧ 0x80 ≤ c2 ∧ c2 < 0xC0 ∧ 0x80 ≤ c3 ∧ c3 < 0xC0 then
          (utf8DecodeL rest3).map
            (fun cs => Char.ofNat
              ((b - 0xF0) * 262144 + (c1 - 0x80) * 4096 + (c2 - 0x80) * 64 + (c3 - 0x80)) :: cs)
        else none
      | _ => none
    else none

/-- Python `bs.decode('utf-8')` returning a `String`. -/
def pyUtf8Decode (bs : List Nat) : Option String :=
  (utf8DecodeL bs).map (fun cs => (⟨cs⟩ : String))

/-- UTF-8 encoding of one character. -/
def utf8EncodeCharL (c : Char) : List Nat :=
  let n := c.toNat
  if n < 0x80 then [n]
  else if n < 0x800 then [0xC0 + n / 64, 0x80 + n % 64]
  else if n < 0x10000 then [0xE0 + n / 4096, 0x80 + (n / 64) % 64, 0x80 + n % 64]
  else [0xF0 + n / 262144, 0x80 + (n / 4096) % 64, 0x80 + (n / 64) % 64, 0x80 + n % 64]

/-- Python `s.encode('utf-8')` as a byte list. -/
def utf8EncodeS (s : String) : List Nat :=
  (s.data.map utf8EncodeCharL).flatten

/-- Join char-list groups with a separator character (Python `sep.join`). -/
def joinSep (sep : Char) : List (List Char) → List Char
  | [] => []
  | [g] => g
  | g :: rest => g ++ sep :: joinSep sep rest

/-! ## TLV decoder

`parse_tlv` appears verbatim in both `otbr_manager.py` (lines 88-106)
and `mdns_publisher.py` (lines 62-80); one embedding covers both.  The
Python `tlvs` dict is an insertion-ordered association list with
in-place overwrite, exactly like a `dict` keyed by small ints. -/

/-- Python `tlvs[tag] = val`: overwrite in place, else append. -/
def dictInsert (d : List (Nat × List Nat)) (k : Nat) (v : List Nat) :
    List (Nat × List Nat) :=
  match d with
  | [] => [(k, v)]
  | (k0, v0) :: rest => if k0 = k then (k, v) :: rest else (k0, v0) :: dictInsert rest k v

/-- Python `tlvs.get(tag)` / `tag in tlvs` combined: lookup. -/
def dictGet? : List (Nat × List Nat) → Nat → Option (List Nat)
  | [], _ => none
  | (k0, v) :: rest, k => if k0 = k then some v else dictGet? rest k

/-- The `while i < len(data)` loop of `parse_tlv`, iterating over the
suffix of the buffer that starts at the loop index: `data[i]` and
`data[i+1]` are the two head elements, `data[i:i+length]` is
`rest.take l`, and both `break` guards (`i + 2 > len(data)` and
`i + length > len(data)`) appear as the pattern and the `l ≤ rest.length`
test.  The fuel argument (one unit per iteration, `data.length` always
suffices) keeps the recursion structural. -/
def parse_tlv_go : Nat → List (Nat × List Nat) → List Nat → List (Nat × List Nat)
  | _, tlvs, [] => tlvs
  | _, tlvs, [_] => tlvs
  | 0, tlvs, _ :: _ :: _ => tlvs
  | fuel + 1, tlvs, t :: l :: rest =>
    if l ≤ rest.length then
      parse_tlv_go fuel (dictInsert tlvs t (rest.take l)) (rest.drop l)
    else tlvs

/-- Embedding of `parse_tlv` applied to an already-decoded byte buffer. -/
def parse_tlv_bytes (data : List Nat) : List (Nat × List Nat) :=
  parse_tlv_go data.length [] data

/-- Embedding of `parse_tlv(hex_str)`: `bytes.fromhex` under `try/except` (failure
yields the empty dict), then the decode loop.  Total by construction:
the embedded function never fails, matching the no-exception contract. -/
def parse_tlv (hex_str : String) : List (Nat × List Nat) :=
  match pyFromHex hex_str with
  | none => []
  | some data => parse_tlv_bytes data

/-- Specification-side list of the TLV records that are fully contained
in the buffer: the greedy record chain `(tag, value)` in buffer order,
stopping at the first record whose header or declared value overruns
the end of the buffer. -/
def tlvRecsGo : Nat → List Nat → List (Nat × List Nat)
  | _, [] => []
  | _, [_] => []
  | 0, _ :: _ :: _ => []
  | fuel + 1, t :: l :: rest =>
    if l ≤ rest.length then (t, rest.take l) :: tlvRecsGo fuel (rest.drop l)
    else []

/-- The fully-contained TLV records of a byte buffer, in buffer order. -/
def tlvRecs (data : List Nat) : List (Nat × List Nat) :=
  tlvRecsGo data.length data

/-- The value of the last record with tag `k` in a record list, if any. -/
def lastLookup (k : Nat) : List (Nat × List Nat) → Option (List Nat)
  | [] => none
  | (t, v) :: rest =>
    match lastLookup k rest with
    | some w => some w
    | none => if t = k then some v else none

/-! ## Advertisement reconciler (`otbr_manager.py`, `update_mdns` and
`get_mdns_properties`) -/

/-- The module constant `mDNS_SERVICE_TYPE` of `otbr_manager.py`. -/
def mDNS_SERVICE_TYPE : String := "_meshcop._udp.local."

/-- The properties dict built by `get_mdns_properties` (keys `nn`, `xp`,
`tv`, `xa`, `id`, `sb`, `vn`, `mn`, always in this fixed order, so dict
equality coincides with field-wise equality of this structure). -/
structure MdnsProps where
  nn : String
  xp : List Nat
  tv : String
  xa : List Nat
  id : List Nat
  sb : List Nat
  vn : List Nat
  mn : List Nat
deriving DecidableEq, Repr

/-- Embedding of `get_mdns_properties`: the three `ot-ctl` query results arrive as the
already-stripped strings `dataset_hex`, `extaddr`, `baid`; `vendor` and
`model` are the `OTBR_VENDOR` / `OTBR_MODEL` environment values.  `none`
models the Python `return None`. -/
def get_mdns_properties (dataset_hex extaddr baid vendor model : String) :
    Option MdnsProps :=
  if dataset_hex = "" ∨ containsSub dataset_hex "Error" ∨ extaddr = "" ∨ baid = "" then
    none
  else
    let tlvs := parse_tlv dataset_hex
    match dictGet? tlvs 3, dictGet? tlvs 2 with
    | some t3, some t2 =>
      match pyUtf8Decode t3, pyFromHex extaddr, pyFromHex baid with
      | some nn, some xa, some bid =>
        some { nn := nn, xp := t2, tv := "1.4.0", xa := xa, id := bid,
               sb := [0x00, 0x00, 0x00, 0x30],
               vn := utf8EncodeS vendor, mn := utf8EncodeS model }
      | _, _, _ => none
    | _, _ => none

/-- The zeroconf `ServiceInfo` the manager constructs: service type,
instance name, packed addresses, port, the properties dict, server host
name. -/
structure ServiceInfoM where
  svcType : String
  name : String
  addresses : List (List Nat)
  port : Nat
  props : MdnsProps
  server : String
deriving DecidableEq, Repr

/-- The `ServiceInfo(...)` construction in `update_mdns` (lines 168-175):
instance name the network name joined by a dot to the service type,
addresses the
`inet_pton` images of the sampled interface addresses (conversion
failures silently skipped), port the module global `mDNS_PORT`
(see `mDNS_PORT?`), fixed server name.  `pton` is the external
`socket.inet_pton(AF_INET6, ·)` collaborator, `none` modelling its
`OSError` on unparsable text. -/
def buildServiceInfo (port : Nat) (pton : String → Option (List Nat))
    (props : MdnsProps) (ip_addrs : List String) (server : String) : ServiceInfoM :=
  { svcType := mDNS_SERVICE_TYPE
  , name := props.nn ++ "." ++ mDNS_SERVICE_TYPE
  , addresses := ip_addrs.filterMap pton
  , port := port
  , props := props
  , server := server }

/-- Python `set(a) == set(b)`: order-independent (and
multiplicity-independent) equality of the two address lists. -/
def listSetEq (a b : List (List Nat)) : Bool :=
  a.all (fun x => x ∈ b) && b.all (fun x => x ∈ a)

/-- The `is_different` decision chain of `update_mdns` (lines 177-186):
current record absent, or instance name differs, or the properties dict
differs, or the address sets (Python `set(...)` comparison) differ. -/
def isDifferent (current : Option ServiceInfoM) (new_info : ServiceInfoM) : Bool :=
  match current with
  | none => true
  | some c =>
    if c.name ≠ new_info.name then true
    else if c.props ≠ new_info.props then true
    else if ¬ listSetEq c.addresses new_info.addresses then true
    else false

/-- Observable mDNS responder actions of one cycle, in program order. -/
inductive MdnsEffect
  | unreg (r : ServiceInfoM)
  | reg (r : ServiceInfoM)
deriving DecidableEq, Repr

/-- The body of `update_mdns` under an environment in which the free
global `mDNS_PORT` resolves to `port` (the source never assigns it; see
`mDNS_PORT?` and `update_mdns`).  Inputs: the sampled properties
(`none` = sample failed), the sampled interface addresses, the tracked
`current_info`, and `collide`, the external fact that
`zeroconf.register_service` raises `NonUniqueNameException` this cycle.
Returns the new tracked record and the responder actions performed, in
order.  A failed registration performs no responder action. -/
def update_mdns_run (port : Nat) (pton : String → Option (List Nat))
    (props? : Option MdnsProps) (ip_addrs : List String) (server : String)
    (current : Option ServiceInfoM) (collide : Bool) :
    Option ServiceInfoM × List MdnsEffect :=
  match props? with
  | none =>
    match current with
    | some c => (none, [.unreg c])
    | none => (none, [])
  | some props =>
    let new_info := buildServiceInfo port pton props ip_addrs server
    if isDifferent current new_info then
      let effs := match current with
                  | some c => [MdnsEffect.unreg c]
                  | none => []
      if collide then (current, effs)
      else (some new_info, effs ++ [.reg new_info])
    else (current, [])

/-- Python `NameError` raised when a free global is unbound. -/
inductive PyErr
  | nameErrorMdnsPort
deriving DecidableEq, Repr

/-- The value of the module global `mDNS_PORT` in `otbr_manager.py`:
the module assigns `mDNS_SERVICE_TYPE`, `mDNS_SERVER_NAME`, `DATA_DIR`
and `POLL_INTERVAL` but never `mDNS_PORT`, so the name referenced at
line 172 is unbound — modelled as `none`. -/
def mDNS_PORT? : Option Nat := none

/-- Embedding of `update_mdns` as shipped: when the dataset sample fails, the global
`mDNS_PORT` is never evaluated (the function returns before the
`ServiceInfo(...)` construction); when the sample succeeds, evaluating
the unbound global raises `NameError`, which escapes `update_mdns`. -/
def update_mdns (port? : Option Nat) (pton : String → Option (List Nat))
    (props? : Option MdnsProps) (ip_addrs : List String) (server : String)
    (current : Option ServiceInfoM) (collide : Bool) :
    Except PyErr (Option ServiceInfoM × List MdnsEffect) :=
  match props? with
  | none => .ok (update_mdns_run 0 pton none ip_addrs server current collide)
  | some props =>
    match port? with
    | none => .error .nameErrorMdnsPort
    | some port => .ok (update_mdns_run port pton (some props) ip_addrs server current collide)

/-- Observation that a call outcome is the `mDNS_PORT` `NameError`
(and in particular not a normal return). -/
def raisesNameError (r : Except PyErr (Option ServiceInfoM × List MdnsEffect)) : Bool :=
  match r with
  | .error .nameErrorMdnsPort => true
  | .ok _ => false

/-- Replay of responder actions over the multiset of currently held
registrations (a registration is held from its `reg` until an `unreg`
of the same record). -/
def applyEffect (regd : List ServiceInfoM) : MdnsEffect → List ServiceInfoM
  | .unreg r => regd.filter (fun x => x ≠ r)
  | .reg r => regd ++ [r]

/-- Replay a whole action sequence. -/
def applyEffects (regd : List ServiceInfoM) (effs : List MdnsEffect) : List ServiceInfoM :=
  effs.foldl applyEffect regd

/-- One driver-loop cycle's inputs, as sampled by `main`. -/
structure CycleIn where
  props? : Option MdnsProps
  ips : List String
  collide : Bool

/-- The driver loop of `main`, restricted to the `update_mdns` step:
threads `current_mdns_info` through the cycles and collects each
cycle's responder actions. -/
def runCycles (port : Nat) (pton : String → Option (List Nat)) (server : String) :
    Option ServiceInfoM → List CycleIn → List (List MdnsEffect)
  | _, [] => []
  | cur, c :: rest =>
    let out := update_mdns_run port pton c.props? c.ips server cur c.collide
    out.2 :: runCycles port pton server out.1 rest

/-! ## Route reconciler (`otbr_manager.py`, `sync_omr_routes`) -/

/-- The one kind of kernel route command `sync_omr_routes` issues:
`ip -6 route add <pfx> dev wpan0 metric 1 || ip -6 route replace ...`. -/
inductive RouteCmd
  | addOrReplace (pfx : String)
deriving DecidableEq, Repr

/-- The prefix a route command is about. -/
def RouteCmd.pfx : RouteCmd → String
  | .addOrReplace p => p

/-- Python `set.add` on a list kept without duplicates, in first-insertion
order (the claims about the resulting set are order-independent). -/
def setAdd (acc : List String) (p : String) : List String :=
  if p ∈ acc then acc else acc ++ [p]

/-- The line scan of `sync_omr_routes` (lines 223-238): track whether the
cursor is inside the `Prefixes` section (a `Routes`/`Services` header
closes it), and collect each in-section line's first token when it
contains `:` and `/64` and is not `::/0`. -/
def omrPfxsGo : List String → Bool → List String → List String
  | [], _, acc => acc
  | line :: rest, inSec, acc =>
    let l := pyStrip line
    if pyStartsWith l "Prefixes" then omrPfxsGo rest true acc
    else if pyStartsWith l "Routes" ∨ pyStartsWith l "Services" then omrPfxsGo rest false acc
    else if inSec ∧ l ≠ "" then
      match pySplitWs l with
      | [] => omrPfxsGo rest inSec acc
      | p :: _ =>
        if containsSub p ":" ∧ containsSub p "/64" ∧ p ≠ "::/0" then
          omrPfxsGo rest inSec (setAdd acc p)
        else omrPfxsGo rest inSec acc
    else omrPfxsGo rest inSec acc

/-- The desired OMR prefix set parsed from the `ot-ctl netdata show`
output. -/
def omrPfxs (netdata_out : String) : List String :=
  omrPfxsGo (pySplitLines netdata_out) false []

/-- The current kernel route set (lines 242-247): the first token of
each `ip -6 route show dev wpan0` output line. -/
def currentRoutes (routes_out : String) : List String :=
  (pySplitLines routes_out).foldl
    (fun acc line =>
      match pySplitWs line with
      | [] => acc
      | p :: _ => setAdd acc p)
    []

/-- Embedding of `sync_omr_routes`, as a pure function from the two collaborator
outputs to the kernel route commands issued: empty netdata output
returns early; otherwise one add-or-replace command per desired prefix
not already present in the kernel route set.  No removal command exists. -/
def sync_omr_routes (netdata_out routes_out : String) : List RouteCmd :=
  if netdata_out = "" then []
  else
    ((omrPfxs netdata_out).filter (fun p => ¬ p ∈ currentRoutes routes_out)).map
      RouteCmd.addOrReplace

/-! ## Interface address sampler (`otbr_manager.py`, `get_ipv6_addresses`) -/

/-- Python colon-join of the four-char slices `raw_hex[i:i+4]` for
`i in range(0, 32, 4)`: group the raw
`/proc/net/if_inet6` hex into 8 four-char groups joined by colons
(short input yields short or empty groups, as Python slicing does). -/
def hexGroupsToIp (raw : String) : String :=
  ⟨joinSep ':' ((List.range 8).map (fun k => (raw.data.drop (4 * k)).take 4))⟩

/-- The per-line step of `get_ipv6_addresses` (lines 70-78): a line
whose whitespace-split has at least 6 fields, whose sixth field is the
interface, contributes its formatted first field unless the formatted
address lowercased starts with the literal `fe80`. -/
def ifInet6Entry? (interface : String) (line : String) : Option String :=
  let parts := pySplitWs line
  if 6 ≤ parts.length ∧ parts.getD 5 "" = interface then
    let ipv6 := hexGroupsToIp (parts.getD 0 "")
    if pyStartsWith (pyLower ipv6) "fe80" then none else some ipv6
  else none

/-- Embedding of `get_ipv6_addresses`: the lines of `/proc/net/if_inet6` to the
collected address list, in file order. -/
def get_ipv6_addresses (lines : List String) (interface : String) : List String :=
  lines.filterMap (ifInet6Entry? interface)

/-! ## Discovery fixer (`otbr_manager.py`, `DiscoveryFixer.check_service`) -/

/-- A resolved foreign announcement (`zeroconf.get_service_info` result)
or a corrected record the fixer publishes: the properties dict of a
foreign record is opaque key-value data carried through unchanged. -/
structure FixerInfo where
  svcType : String
  name : String
  addresses : List (List Nat)
  port : Nat
  props : List (String × List Nat)
  server : String
deriving DecidableEq, Repr

/-- String-keyed lookup in the association tables. -/
def assocGet? : List (String × α) → String → Option α
  | [], _ => none
  | (k0, v) :: rest, k => if k0 = k then some v else assocGet? rest k

/-- Embedding of `DiscoveryFixer.check_service` (lines 358-413) as a pure function:
`info?` is the resolution result (`None` → return), `mac_rloc` and
`rloc_ips` the association tables, `pton` the external
`socket.inet_pton` collaborator.  The returned record is the corrected
announcement passed to `register_service(..., cooperating_responders=True)`,
or `none` when no registration is attempted.  Steps, as in the source:
lowercase the server host name; if it ends in `.local.`, remove every
occurrence of `.local.` (Python `str.replace`) and accept the result as
a MAC candidate only at length 16; map MAC → RLOC → candidate IPs; only
when the resolved record carries no addresses and candidates exist,
convert the candidates (conversion failures skipped; all failing →
return) and build the corrected record with the same type, name, port,
properties and server. -/
def check_service (pton : String → Option (List Nat))
    (mac_rloc : List (String × String)) (rloc_ips : List (String × List String))
    (info? : Option FixerInfo) : Option FixerInfo :=
  match info? with
  | none => none
  | some info =>
    let server_name := pyLower info.server
    let target_mac? : Option String :=
      if pyEndsWith server_name ".local." then
        let potential_mac := pyReplace server_name ".local." ""
        if potential_mac.length = 16 then some potential_mac else none
      else none
    let candidate_ips : List String :=
      match target_mac? with
      | some m =>
        match assocGet? mac_rloc m with
        | some rloc => (assocGet? rloc_ips rloc).getD []
        | none => []
      | none => []
    if info.addresses = [] ∧ candidate_ips ≠ [] then
      let addr_bytes := candidate_ips.filterMap pton
      if addr_bytes = [] then none
      else some { svcType := info.svcType, name := info.name,
                  addresses := addr_bytes, port := info.port,
                  props := info.props, server := info.server }
    else none

/-- The claim C3 reads the candidate MAC as the server host name
"stripped of the `.local.` suffix"; this definition follows those
words (drop the last 7 characters), for comparison with the
`str.replace`-based computation the source performs. -/
def specStripLocalSuffix (s : String) : String :=
  ⟨s.data.take (s.data.length - 7)⟩

/-! ## Specification-side predicates and concrete fixtures -/

/-- Membership of a textual IPv6 address in the link-local prefix
`fe80::/10`: the first hextet, read as hex, lies in `[0xfe80, 0xfec0)`. -/
def inLinkLocal10 (addr : String) : Bool :=
  match addr.data with
  | c1 :: c2 :: c3 :: c4 :: _ =>
    match hexDigitVal? c1, hexDigitVal? c2, hexDigitVal? c3, hexDigitVal? c4 with
    | some a, some b, some c, some d =>
      let v := 4096 * a + 256 * b + 16 * c + d
      decide (0xfe80 ≤ v ∧ v < 0xfec0)
    | _, _, _, _ => false
  | _ => false

/-- Within one cycle the responder actions are empty, one withdrawal,
one registration, or a withdrawal followed by a registration — never a
registration before a withdrawal. -/
def shapeOk : List MdnsEffect → Bool
  | [] => true
  | [.unreg _] => true
  | [.reg _] => true
  | [.unreg _, .reg _] => true
  | _ => false

/-- Reconciler state invariant: the registrations held by the responder
are either none, or exactly the record the reconciler tracks. -/
def regInv (cur : Option ServiceInfoM) (regd : List ServiceInfoM) : Prop :=
  regd = [] ∨ ∃ c, cur = some c ∧ regd = [c]

/-- A concrete `socket.inet_pton(AF_INET6, ·)` oracle for the fixtures:
parses exactly the address `fd01::1` of the spec's scenario. -/
def pton0 : String → Option (List Nat) :=
  fun s =>
    if s = "fd01::1" then
      some [0xfd, 0x01, 0, 0, 0, 0, 0, 0, 0, 0, 0, 0, 0, 0, 0, 0x01]
    else none

/-- The spec's end-to-end dataset TLV hex: tag 2 (extended PAN ID
`aabbccddeeff0011`) and tag 3 (network name `MyMesh`). -/
def c2DatasetHex : String := "0208aabbccddeeff001103064d794d657368"

/-- The properties the spec's end-to-end dataset decodes to. -/
def c2Props : MdnsProps :=
  { nn := "MyMesh"
  , xp := [0xaa, 0xbb, 0xcc, 0xdd, 0xee, 0xff, 0x00, 0x11]
  , tv := "1.4.0"
  , xa := [0x00, 0x11, 0x22, 0x33, 0x44, 0x55, 0x66, 0x77]
  , id := [0x00, 0x11, 0x22, 0x33, 0x44, 0x55, 0x66, 0x77,
           0x88, 0x99, 0xaa, 0xbb, 0xcc, 0xdd, 0xee, 0xff]
  , sb := [0x00, 0x00, 0x00, 0x30]
  , vn := utf8EncodeS "OpenThread"
  , mn := utf8EncodeS "SLZB-OTBR" }

/-- The spec's association table: MAC `aabbccddeeff0011` → RLOC `8c00`. -/
def c3MacRloc : List (String × String) := [("aabbccddeeff0011", "8c00")]

/-- The spec's association table: RLOC `8c00` → `{fd01::1}`. -/
def c3RlocIps : List (String × List String) := [("8c00", ["fd01::1"])]

/-- A foreign announcement whose server host name contains `.local.`
also inside the 16-character name part that precedes the suffix. -/
def c3BadInfo : FixerInfo :=
  { svcType := "_matterc._udp.local.", name := "X._matterc._udp.local."
  , addresses := [], port := 5540, props := [], server := "ab.local.cdefghi.local." }

/-- Association table giving the `c3BadInfo` host name's suffix-stripped
form a verified locator. -/
def c3BadMacRloc : List (String × String) := [("ab.local.cdefghi", "8c00")]

/-- The spec's foreign announcement: host `aabbccddeeff0011.local.`,
zero addresses. -/
def c3GoodInfo : FixerInfo :=
  { svcType := "_matterc._udp.local.", name := "X._matterc._udp.local."
  , addresses := [], port := 5540, props := [("k", [1])]
  , server := "aabbccddeeff0011.local." }

/-- The same announcement already carrying one address. -/
def c3GoodInfoWithAddr : FixerInfo :=
  { c3GoodInfo with addresses := [[9]] }

/-- A concrete published advertisement record, for the collision cycle. -/
def c6PropsA : MdnsProps :=
  { nn := "MeshA", xp := [1], tv := "1.4.0", xa := [2], id := [3]
  , sb := [0, 0, 0, 0x30], vn := [4], mn := [5] }

/-- Freshly sampled properties differing from `c6PropsA` in network name. -/
def c6PropsB : MdnsProps :=
  { c6PropsA with nn := "MeshB" }

/-- The record published before the collision cycle. -/
def c6A : ServiceInfoM :=
  buildServiceInfo 49154 pton0 c6PropsA [] "otbr-server.local."

/-- The spec's two-desired-one-current netdata report: `Prefixes`
section with `P1` and `P2`, closed by a `Routes` section. -/
def c8Netdata : String :=
  "Prefixes:\nfd01:adb5:fb49:1::/64 paros low 8c00\nfd02:0:0:1::/64 paros low 8c01\nRoutes:"

/-- The kernel route table already carrying `P1`. -/
def c8Routes : String := "fd01:adb5:fb49:1::/64 dev wpan0 metric 1"

/-- Dataset availability true → false → true across three cycles. -/
def c9Scenario : List CycleIn :=
  [⟨some c6PropsA, [], false⟩, ⟨none, [], false⟩, ⟨some c6PropsA, [], false⟩]

/-- A `/proc/net/if_inet6` line binding to `wpan0` an address inside
`fe80::/10` whose text form begins `fe81`, not `fe80`. -/
def c4Fe81Line : String := "fe810000000000000000000000000001 02 40 20 80 wpan0"

/-! ## Lemmas: the TLV dict against the record-chain specification -/

theorem dictGet?_dictInsert (d : List (Nat × List Nat)) (t k : Nat) (v : List Nat) :
    dictGet? (dictInsert d t v) k = if t = k then some v else dictGet? d k := by
  induction d with
  | nil => simp [dictInsert, dictGet?]
  | cons hd tl ih =>
    obtain ⟨k0, v0⟩ := hd
    by_cases h : k0 = t
    · subst h
      by_cases hk : k0 = k <;> simp [dictInsert, dictGet?, hk]
    · by_cases hk : k0 = k
      · subst hk
        have ht : t ≠ k0 := fun he => h he.symm
        simp [dictInsert, dictGet?, h, ht]
      · simp [dictInsert, dictGet?, h, hk, ih]

theorem parse_tlv_go_eq_foldl :
    ∀ (fuel : Nat) (data : List Nat) (tlvs : List (Nat × List Nat)),
      data.length ≤ fuel →
      parse_tlv_go fuel tlvs data =
        (tlvRecsGo fuel data).foldl (fun d kv => dictInsert d kv.1 kv.2) tlvs := by
  intro fuel
  induction fuel with
  | zero =>
    intro data tlvs h
    have hnil : data = [] := List.eq_nil_of_length_eq_zero (Nat.le_zero.mp h)
    subst hnil
    simp [parse_tlv_go, tlvRecsGo]
  | succ fuel ih =>
    intro data tlvs h
    obtain _ | ⟨t, _ | ⟨l, rest⟩⟩ := data
    · simp [parse_tlv_go, tlvRecsGo]
    · simp [parse_tlv_go, tlvRecsGo]
    · simp only [parse_tlv_go, tlvRecsGo]
      by_cases hl : l ≤ rest.length
      · simp only [if_pos hl, List.foldl_cons]
        apply ih
        have hlen : (rest.drop l).length = rest.length - l := List.length_drop _ _
        have : rest.length + 2 ≤ fuel + 1 := by simpa using h
        omega
      · simp [if_neg hl]

theorem foldl_dictInsert_get (k : Nat) (l : List (Nat × List Nat)) :
    ∀ d, dictGet? (l.foldl (fun d kv => dictInsert d kv.1 kv.2) d) k =
      match lastLookup k l with
      | some w => some w
      | none => dictGet? d k := by
  induction l with
  | nil => intro d; simp [lastLookup]
  | cons hd tl ih =>
    intro d
    obtain ⟨t, v⟩ := hd
    simp only [List.foldl_cons]
    rw [ih]
    simp only [lastLookup]
    cases hlk : lastLookup k tl with
    | some w => simp
    | none =>
      simp only []
      rw [dictGet?_dictInsert]
      by_cases ht : t = k <;> simp [ht]

theorem parse_tlv_bytes_get (data : List Nat) (k : Nat) :
    dictGet? (parse_tlv_bytes data) k = lastLookup k (tlvRecs data) := by
  unfold parse_tlv_bytes tlvRecs
  rw [parse_tlv_go_eq_foldl data.length data [] (Nat.le_refl _), foldl_dictInsert_get]
  cases lastLookup k (tlvRecsGo data.length data) <;> simp [dictGet?]

theorem lastLookup_isSome (k : Nat) (l : List (Nat × List Nat)) :
    (lastLookup k l).isSome = true ↔ k ∈ l.map Prod.fst := by
  induction l with
  | nil => simp [lastLookup]
  | cons hd tl ih =>
    obtain ⟨t, v⟩ := hd
    simp only [lastLookup, List.map_cons, List.mem_cons]
    cases h : lastLookup k tl with
    | some w =>
      have hk : k ∈ List.map Prod.fst tl := ih.mp (by simp [h])
      exact iff_of_true (by simp) (Or.inr hk)
    | none =>
      have hk : ¬ k ∈ List.map Prod.fst tl := fun hm => by
        have hs := ih.mpr hm
        rw [h] at hs
        simp at hs
      by_cases ht : t = k
      · subst ht
        simp
      · rw [if_neg ht]
        refine iff_of_false (by simp) ?_
        rintro (rfl | hm)
        · exact ht rfl
        · exact hk hm

theorem lastLookup_append (k : Nat) (l₁ l₂ : List (Nat × List Nat)) :
    lastLookup k (l₁ ++ l₂) =
      match lastLookup k l₂ with
      | some w => some w
      | none => lastLookup k l₁ := by
  induction l₁ with
  | nil =>
    simp only [List.nil_append]
    cases h2 : lastLookup k l₂ <;> simp [lastLookup, h2]
  | cons hd tl ih =>
    obtain ⟨t, v⟩ := hd
    have hexp : lastLookup k ((t, v) :: (tl ++ l₂)) =
        match lastLookup k (tl ++ l₂) with
        | some w => some w
        | none => if t = k then some v else none := rfl
    rw [List.cons_append, hexp, ih]
    cases h2 : lastLookup k l₂ with
    | some w => rfl
    | none =>
      have hexp2 : lastLookup k ((t, v) :: tl) =
          match lastLookup k tl with
          | some w => some w
          | none => if t = k then some v else none := rfl
      rw [hexp2]

theorem lastLookup_of_all_ne (k : Nat) (l : List (Nat × List Nat))
    (h : ∀ kv ∈ l, kv.1 ≠ k) : lastLookup k l = none := by
  induction l with
  | nil => rfl
  | cons hd tl ih =>
    obtain ⟨t, v⟩ := hd
    have ht : t ≠ k := h (t, v) (List.mem_cons_self _ _)
    have htl := ih (fun kv hkv => h kv (List.mem_cons_of_mem _ hkv))
    simp [lastLookup, htl, ht]

/-- C7 (amended): for every byte buffer, `parse_tlv` terminates (it is a
total function of the embedding) and returns the dict that maps each
tag to the value bytes of the last fully-contained TLV record carrying
that tag; a tag is present in the dict exactly when some fully-contained
record carries it, so nothing from a cut-off record is ever returned. -/
theorem parse_tlv_maps_contained_records :
    ∀ (data : List Nat) (k : Nat),
      dictGet? (parse_tlv_bytes data) k = lastLookup k (tlvRecs data)
      ∧ ((dictGet? (parse_tlv_bytes data) k).isSome = true
          ↔ k ∈ (tlvRecs data).map Prod.fst) := by
  intro data k
  refine ⟨parse_tlv_bytes_get data k, ?_⟩
  rw [parse_tlv_bytes_get data k]
  exact lastLookup_isSome k (tlvRecs data)

/-- C7 (counterexample to the claim as stated): in the buffer
`01 01 00 01 01 05` both records are fully contained, but the returned
mapping does not contain the tag→value pair `(1, [0])` of the first
record — the second overwrites it. -/
theorem parse_tlv_drops_earlier_duplicate :
    ((1, ([0] : List Nat)) ∈ tlvRecs [1, 1, 0, 1, 1, 5])
    ∧ dictGet? (parse_tlv_bytes [1, 1, 0, 1, 1, 5]) 1 = some [5]
    ∧ ((dictGet? (parse_tlv_bytes [1, 1, 0, 1, 1, 5]) 1 == some [0]) = false) := by
  decide

/-- C10: when the same tag occurs in several fully-contained records,
the returned mapping carries the value bytes of the last such record in
buffer order. -/
theorem parse_tlv_last_duplicate_wins :
    ∀ (data : List Nat) (k : Nat) (v : List Nat) (pre suf : List (Nat × List Nat)),
      tlvRecs data = pre ++ (k, v) :: suf →
      (∀ kv ∈ suf, kv.1 ≠ k) →
      dictGet? (parse_tlv_bytes data) k = some v := by
  intro data k v pre suf hrecs hsuf
  rw [parse_tlv_bytes_get, hrecs]
  have h1 : lastLookup k ((k, v) :: suf) = some v := by
    simp [lastLookup, lastLookup_of_all_ne k suf hsuf]
  rw [lastLookup_append, h1]

/-- C10 witness: buffer `07 01 02 07 01 09` holds tag 7 twice; the
mapping returns the later value `[9]`. -/
theorem parse_tlv_last_duplicate_wins_witness :
    dictGet? (parse_tlv_bytes [7, 1, 2, 7, 1, 9]) 7 = some [9] :=
  parse_tlv_last_duplicate_wins [7, 1, 2, 7, 1, 9] 7 [9] [(7, [2])] []
    (by decide) (by decide)

/-! ## Lemmas: route reconciler -/

theorem all_setAdd (q : String → Bool) (acc : List String) (p : String)
    (hq : q p = true) (h : acc.all q = true) : (setAdd acc p).all q = true := by
  unfold setAdd
  split
  · exact h
  · simp only [List.all_append, h, Bool.true_and, List.all_cons, List.all_nil,
      Bool.and_true]
    exact hq

theorem omrPfxsGo_no_default :
    ∀ (lines : List String) (inSec : Bool) (acc : List String),
      acc.all (fun p => p != "::/0") = true →
      (omrPfxsGo lines inSec acc).all (fun p => p != "::/0") = true := by
  intro lines
  induction lines with
  | nil => intro inSec acc h; simpa [omrPfxsGo] using h
  | cons line rest ih =>
    intro inSec acc h
    simp only [omrPfxsGo]
    split
    · exact ih _ _ h
    · split
      · exact ih _ _ h
      · split
        · split
          · exact ih _ _ h
          · split
            · rename_i p tail hps hguard
              apply ih
              apply all_setAdd _ _ _ _ h
              have hne : p ≠ "::/0" := hguard.2.2
              simpa using hne
            · exact ih _ _ h
        · exact ih _ _ h

/-- C1: no mesh-control network-data report — including one whose
`Prefixes` section offers `::/0` — ever puts `::/0` into the computed
prefix set, and `sync_omr_routes` never issues a kernel route
add-or-replace command for `::/0`. -/
theorem sync_omr_routes_no_default :
    ∀ (netdata_out routes_out : String),
      ((omrPfxs netdata_out).all (fun p => p != "::/0")) = true
      ∧ ((sync_omr_routes netdata_out routes_out).all
          (fun c => c.pfx != "::/0")) = true := by
  intro nd rt
  have h1 : (omrPfxs nd).all (fun p => p != "::/0") = true :=
    omrPfxsGo_no_default _ false [] (by simp)
  refine ⟨h1, ?_⟩
  unfold sync_omr_routes
  split
  · simp
  · rw [List.all_eq_true]
    intro c hc
    rw [List.mem_map] at hc
    obtain ⟨p, hp, rfl⟩ := hc
    have hp2 : p ∈ omrPfxs nd := (List.mem_filter.mp hp).1
    have := (List.all_eq_true.mp h1) p hp2
    simpa [RouteCmd.pfx] using this

/-- C8: for the spec's scenario — desired `{P1, P2}` read from the
`Prefixes` section, kernel table already holding `P1` — exactly one
add-or-replace command is issued, for `P2`; and in general a prefix
already present in the current kernel route set (in particular one
present only there) receives no command of any kind, so routes are
never removed. -/
theorem sync_omr_routes_adds_only_missing :
    sync_omr_routes c8Netdata c8Routes = [RouteCmd.addOrReplace "fd02:0:0:1::/64"]
    ∧ ∀ (netdata_out routes_out p : String),
        p ∈ currentRoutes routes_out →
        ((sync_omr_routes netdata_out routes_out).all (fun c => c.pfx != p)) = true := by
  constructor
  · decide
  · intro nd rt p hp
    unfold sync_omr_routes
    split
    · simp
    · rw [List.all_eq_true]
      intro c hc
      rw [List.mem_map] at hc
      obtain ⟨q, hq, rfl⟩ := hc
      have hnotin : ¬ q ∈ currentRoutes rt := by
        have := (List.mem_filter.mp hq).2
        simpa using this
      have hne : q ≠ p := fun he => hnotin (he ▸ hp)
      simpa [RouteCmd.pfx] using hne

/-- C8 witness: in the spec's scenario the stale-free current prefix
`P1` receives no command. -/
theorem sync_omr_routes_adds_only_missing_witness :
    ((sync_omr_routes c8Netdata c8Routes).all
      (fun c => c.pfx != "fd01:adb5:fb49:1::/64")) = true :=
  sync_omr_routes_adds_only_missing.2 c8Netdata c8Routes "fd01:adb5:fb49:1::/64"
    (by decide)

/-! ## Lemmas: interface-address sampler -/

theorem ifInet6Entry?_eq_some (interface line a : String) :
    ifInet6Entry? interface line = some a ↔
      (6 ≤ (pySplitWs line).length ∧ (pySplitWs line).getD 5 "" = interface
       ∧ a = hexGroupsToIp ((pySplitWs line).getD 0 "")
       ∧ pyStartsWith (pyLower a) "fe80" = false) := by
  simp only [ifInet6Entry?]
  by_cases h1 : 6 ≤ (pySplitWs line).length ∧ (pySplitWs line).getD 5 "" = interface
  · rw [if_pos h1]
    by_cases h2 : pyStartsWith (pyLower (hexGroupsToIp ((pySplitWs line).getD 0 ""))) "fe80"
      = true
    · rw [if_pos h2]
      constructor
      · intro he
        exact Option.noConfusion he
      · rintro ⟨-, -, rfl, h4⟩
        rw [h4] at h2
        exact Bool.noConfusion h2
    · rw [if_neg h2]
      constructor
      · intro he
        have ha := Option.some.inj he
        subst ha
        refine ⟨h1.1, h1.2, rfl, ?_⟩
        cases hb : pyStartsWith (pyLower (hexGroupsToIp ((pySplitWs line).getD 0 ""))) "fe80"
        · rfl
        · exact absurd hb h2
      · rintro ⟨-, -, rfl, h4⟩
        rfl
  · rw [if_neg h1]
    constructor
    · intro he
      exact Option.noConfusion he
    · rintro ⟨ha, hb, -, -⟩
      exact absurd ⟨ha, hb⟩ h1

/-- C4 (amended): `get_ipv6_addresses` returns exactly the formatted
addresses of the interface's `/proc/net/if_inet6` lines whose text
form, lowercased, does not begin with the literal `fe80` — the
exclusion test is textual, not a `fe80::/10` prefix test. -/
theorem get_ipv6_addresses_exactly_non_fe80_text :
    ∀ (lines : List String) (interface a : String),
      a ∈ get_ipv6_addresses lines interface ↔
        ∃ line, line ∈ lines
          ∧ 6 ≤ (pySplitWs line).length
          ∧ (pySplitWs line).getD 5 "" = interface
          ∧ a = hexGroupsToIp ((pySplitWs line).getD 0 "")
          ∧ pyStartsWith (pyLower a) "fe80" = false := by
  intro lines interface a
  unfold get_ipv6_addresses
  rw [List.mem_filterMap]
  constructor
  · rintro ⟨line, hline, he⟩
    obtain ⟨h1, h2, h3, h4⟩ := (ifInet6Entry?_eq_some interface line a).mp he
    exact ⟨line, hline, h1, h2, h3, h4⟩
  · rintro ⟨line, hline, h1, h2, h3, h4⟩
    exact ⟨line, hline, (ifInet6Entry?_eq_some interface line a).mpr ⟨h1, h2, h3, h4⟩⟩

/-- C4 (counterexample to the claim as stated): an interface-address
table binding the `fe80::/10` address `fe81::1` to the mesh interface:
the address is inside `fe80::/10` yet `get_ipv6_addresses` returns it,
because only the literal text `fe80` is excluded. -/
theorem get_ipv6_addresses_keeps_fe81 :
    get_ipv6_addresses [c4Fe81Line] "wpan0"
      = ["fe81:0000:0000:0000:0000:0000:0000:0001"]
    ∧ inLinkLocal10 "fe81:0000:0000:0000:0000:0000:0000:0001" = true := by
  decide

/-! ## Lemmas: discovery fixer -/

/-- C3 (counterexample to the claim as stated): the host name
`ab.local.cdefghi.local.` stripped of the `.local.` suffix is the
16-character string `ab.local.cdefghi`, which the association tables
map to a locator with a non-empty address set, and the resolved record
carries zero addresses — yet `check_service` registers nothing, because
the source removes every occurrence of `.local.`, yielding the
9-character `abcdefghi`. -/
theorem check_service_strips_all_occurrences :
    pyEndsWith (pyLower c3BadInfo.server) ".local." = true
    ∧ specStripLocalSuffix (pyLower c3BadInfo.server) = "ab.local.cdefghi"
    ∧ ("ab.local.cdefghi" : String).length = 16
    ∧ assocGet? c3BadMacRloc "ab.local.cdefghi" = some "8c00"
    ∧ assocGet? c3RlocIps "8c00" = some ["fd01::1"]
    ∧ c3BadInfo.addresses = []
    ∧ check_service pton0 c3BadMacRloc c3RlocIps (some c3BadInfo) = none := by
  decide

/-- C3 (amended): with the candidate MAC computed as the source does —
every occurrence of `.local.` removed from the lowercased server host
name (which coincides with suffix-stripping whenever `.local.` does not
also occur inside the name part, e.g. for hex MAC host names) — a
watched announcement resolving with zero addresses and a verified
non-empty candidate set is re-registered with the same service type,
instance name, port, properties and server, carrying exactly the
candidate addresses (each parsed by the address-conversion
collaborator); an announcement already carrying an address triggers no
registration. -/
theorem check_service_amended :
    ∀ (pton : String → Option (List Nat)) (mac_rloc : List (String × String))
      (rloc_ips : List (String × List String)) (info : FixerInfo)
      (rloc : String) (ips : List String),
      pyEndsWith (pyLower info.server) ".local." = true →
      (pyReplace (pyLower info.server) ".local." "").length = 16 →
      assocGet? mac_rloc (pyReplace (pyLower info.server) ".local." "") = some rloc →
      assocGet? rloc_ips rloc = some ips →
      ips ≠ [] →
      (∀ ip ∈ ips, (pton ip).isSome = true) →
      (info.addresses = [] →
        check_service pton mac_rloc rloc_ips (some info) =
          some { svcType := info.svcType, name := info.name
               , addresses := ips.filterMap pton, port := info.port
               , props := info.props, server := info.server })
      ∧ (info.addresses ≠ [] →
        check_service pton mac_rloc rloc_ips (some info) = none) := by
  intro pton mac_rloc rloc_ips info rloc ips h1 h2 h3 h4 h5 h6
  have hfm : ips.filterMap pton ≠ [] := by
    cases ips with
    | nil => exact absurd rfl h5
    | cons ip rest =>
      have hs := h6 ip (List.mem_cons_self _ _)
      obtain ⟨b, hb⟩ := Option.isSome_iff_exists.mp hs
      simp [List.filterMap_cons, hb]
  simp only [check_service, h1, if_true, h2, h3, h4, Option.getD_some]
  constructor
  · intro ha
    rw [if_pos ⟨ha, h5⟩, if_neg hfm]
  · intro ha
    rw [if_neg (fun hc => ha hc.1)]

/-- C3 witness: the spec's scenario (MAC `aabbccddeeff0011`, locator
`8c00`, address `fd01::1`): the zero-address announcement is corrected
with exactly that address; the same announcement with one address is
left alone. -/
theorem check_service_amended_witness :
    check_service pton0 c3MacRloc c3RlocIps (some c3GoodInfo)
      = some { svcType := c3GoodInfo.svcType, name := c3GoodInfo.name
             , addresses := (["fd01::1"] : List String).filterMap pton0
             , port := c3GoodInfo.port, props := c3GoodInfo.props
             , server := c3GoodInfo.server }
    ∧ check_service pton0 c3MacRloc c3RlocIps (some c3GoodInfoWithAddr) = none := by
  constructor
  · exact (check_service_amended pton0 c3MacRloc c3RlocIps c3GoodInfo "8c00" ["fd01::1"]
      (by decide) (by decide) (by decide) (by decide) (by decide) (by decide)).1 rfl
  · exact (check_service_amended pton0 c3MacRloc c3RlocIps c3GoodInfoWithAddr "8c00"
      ["fd01::1"]
      (by decide) (by decide) (by decide) (by decide) (by decide) (by decide)).2 (by decide)

/-! ## Lemmas: advertisement reconciler -/

theorem isDifferent_some_iff (c n : ServiceInfoM) :
    isDifferent (some c) n = true ↔
      (c.name ≠ n.name ∨ c.props ≠ n.props
       ∨ listSetEq c.addresses n.addresses = false) := by
  constructor
  · intro h
    by_contra hcon
    push_neg at hcon
    obtain ⟨g1, g2, g3⟩ := hcon
    have g4 : listSetEq c.addresses n.addresses = true := by
      cases hb : listSetEq c.addresses n.addresses
      · exact absurd hb g3
      · rfl
    simp [isDifferent, g1, g2, g4] at h
  · intro h
    by_cases e1 : c.name = n.name
    · by_cases e2 : c.props = n.props
      · rcases h with h | h | h
        · exact absurd e1 h
        · exact absurd e2 h
        · simp [isDifferent, e1, e2, h]
      · simp [isDifferent, e1, e2]
    · simp [isDifferent, e1]

/-- C2: the spec's end-to-end sample succeeds — the dataset hex decodes
to network name `MyMesh` and the claimed properties, giving the
instance name `MyMesh._meshcop._udp.local.` — but `update_mdns` then
evaluates the never-assigned module global `mDNS_PORT` while building
the `ServiceInfo`, raising `NameError` instead of registering. -/
theorem update_mdns_raises_name_error :
    get_mdns_properties c2DatasetHex "0011223344556677"
        "00112233445566778899aabbccddeeff" "OpenThread" "SLZB-OTBR" = some c2Props
    ∧ c2Props.nn ++ "." ++ mDNS_SERVICE_TYPE = "MyMesh._meshcop._udp.local."
    ∧ raisesNameError (update_mdns mDNS_PORT? pton0
        (get_mdns_properties c2DatasetHex "0011223344556677"
          "00112233445566778899aabbccddeeff" "OpenThread" "SLZB-OTBR")
        [] "otbr-server.local." none false) = true := by
  decide

/-- C5: on a cycle with a published record (and the port global
resolving, see `mDNS_PORT?`), `update_mdns` re-registers exactly when
the freshly built record differs from the published one in instance
name, properties dict, or address set; and the address-set comparison
is order-independent set equality. -/
theorem update_mdns_reregisters_iff_different :
    ∀ (port : Nat) (pton : String → Option (List Nat)) (props : MdnsProps)
      (ips : List String) (server : String) (c : ServiceInfoM),
      (MdnsEffect.reg (buildServiceInfo port pton props ips server)
          ∈ (update_mdns_run port pton (some props) ips server (some c) false).2
        ↔ (c.name ≠ (buildServiceInfo port pton props ips server).name
           ∨ c.props ≠ (buildServiceInfo port pton props ips server).props
           ∨ listSetEq c.addresses
               (buildServiceInfo port pton props ips server).addresses = false))
    ∧ (∀ (a b : List (List Nat)), listSetEq a b = true ↔ ∀ x, x ∈ a ↔ x ∈ b) := by
  intro port pton props ips server c
  constructor
  · rw [← isDifferent_some_iff c (buildServiceInfo port pton props ips server)]
    cases hd : isDifferent (some c) (buildServiceInfo port pton props ips server) with
    | true =>
      have hout : update_mdns_run port pton (some props) ips server (some c) false
          = (some (buildServiceInfo port pton props ips server),
             [MdnsEffect.unreg c,
              MdnsEffect.reg (buildServiceInfo port pton props ips server)]) := by
        simp [update_mdns_run, hd]
      rw [hout]
      simp
    | false =>
      have hout : update_mdns_run port pton (some props) ips server (some c) false
          = (some c, []) := by
        simp [update_mdns_run, hd]
      rw [hout]
      simp
  · intro a b
    simp only [listSetEq, Bool.and_eq_true, List.all_eq_true, decide_eq_true_eq]
    constructor
    · rintro ⟨hab, hba⟩ x
      exact ⟨fun hx => hab x hx, fun hx => hba x hx⟩
    · intro h
      exact ⟨fun x hx => (h x).mp hx, fun x hx => (h x).mpr hx⟩

/-- C6 (counterexample to the claim as stated): a collision cycle with
a published, registered record and differing fresh properties: the
tracked state is retained (`some c6A`) and is retried, but the only
responder action of the cycle is the withdrawal of the old record,
performed before the failed registration — so the previously published
record does not remain registered. -/
theorem collision_cycle_withdraws_old :
    (update_mdns_run 49154 pton0 (some c6PropsB) [] "otbr-server.local."
        (some c6A) true).1 = some c6A
    ∧ (update_mdns_run 49154 pton0 (some c6PropsB) [] "otbr-server.local."
        (some c6A) true).2 = [MdnsEffect.unreg c6A]
    ∧ applyEffects [c6A]
        (update_mdns_run 49154 pton0 (some c6PropsB) [] "otbr-server.local."
          (some c6A) true).2 = [] := by
  decide

/-- C6 (amended): a `NonUniqueNameException` on registration is
non-fatal: the reconciler keeps tracking the previously published
record and the registration is retried next cycle; however the old
record has already been withdrawn from the responder before the failed
attempt, so it remains tracked but not registered. -/
theorem update_mdns_collision_keeps_state :
    ∀ (port : Nat) (pton : String → Option (List Nat)) (props : MdnsProps)
      (ips : List String) (server : String) (c : ServiceInfoM),
      isDifferent (some c) (buildServiceInfo port pton props ips server) = true →
      update_mdns_run port pton (some props) ips server (some c) true
        = (some c, [MdnsEffect.unreg c])
      ∧ MdnsEffect.reg (buildServiceInfo port pton props ips server)
          ∈ (update_mdns_run port pton (some props) ips server (some c) false).2 := by
  intro port pton props ips server c hd
  constructor
  · simp [update_mdns_run, hd]
  · simp [update_mdns_run, hd]

/-- C6 witness: the collision cycle on the concrete records keeps
tracking `c6A` after withdrawing it, and the next collision-free cycle
registers the fresh record. -/
theorem update_mdns_collision_keeps_state_witness :
    update_mdns_run 49154 pton0 (some c6PropsB) [] "otbr-server.local." (some c6A) true
      = (some c6A, [MdnsEffect.unreg c6A])
    ∧ MdnsEffect.reg (buildServiceInfo 49154 pton0 c6PropsB [] "otbr-server.local.")
        ∈ (update_mdns_run 49154 pton0 (some c6PropsB) [] "otbr-server.local."
            (some c6A) false).2 :=
  update_mdns_collision_keeps_state 49154 pton0 c6PropsB [] "otbr-server.local." c6A
    (by decide)

theorem applyEffects_append (regd : List ServiceInfoM) (a b : List MdnsEffect) :
    applyEffects regd (a ++ b) = applyEffects (applyEffects regd a) b := by
  unfold applyEffects
  rw [List.foldl_append]

theorem applyEffect_unreg_self (c : ServiceInfoM) (regd : List ServiceInfoM)
    (hinv : regInv (some c) regd) : applyEffect regd (MdnsEffect.unreg c) = [] := by
  rcases hinv with rfl | ⟨c0, hc0, rfl⟩
  · rfl
  · obtain rfl : c = c0 := Option.some.inj hc0
    simp [applyEffect]

theorem update_mdns_run_cycle_inv
    (port : Nat) (pton : String → Option (List Nat)) (props? : Option MdnsProps)
    (ips : List String) (server : String) (cur : Option ServiceInfoM) (collide : Bool)
    (regd : List ServiceInfoM) (hinv : regInv cur regd) :
    regInv (update_mdns_run port pton props? ips server cur collide).1
      (applyEffects regd (update_mdns_run port pton props? ips server cur collide).2)
    ∧ (∀ k, (applyEffects regd
        ((update_mdns_run port pton props? ips server cur collide).2.take k)).length ≤ 1)
    ∧ shapeOk (update_mdns_run port pton props? ips server cur collide).2 = true := by
  have hlen : regd.length ≤ 1 := by
    rcases hinv with rfl | ⟨c0, -, rfl⟩ <;> simp
  cases props? with
  | none =>
    cases cur with
    | none =>
      refine ⟨?_, ?_, rfl⟩
      · show regInv none (applyEffects regd [])
        rcases hinv with rfl | ⟨c0, hc0, -⟩
        · exact Or.inl rfl
        · exact Option.noConfusion hc0
      · intro k
        show (applyEffects regd (List.take k [])).length ≤ 1
        simpa [applyEffects] using hlen
    | some c =>
      have heff : applyEffects regd [MdnsEffect.unreg c] = [] :=
        applyEffect_unreg_self c regd hinv
      refine ⟨?_, ?_, rfl⟩
      · show regInv none (applyEffects regd [MdnsEffect.unreg c])
        rw [heff]
        exact Or.inl rfl
      · intro k
        show (applyEffects regd ([MdnsEffect.unreg c].take k)).length ≤ 1
        cases k with
        | zero => simpa [applyEffects] using hlen
        | succ k =>
          rw [show [MdnsEffect.unreg c].take (k + 1) = [MdnsEffect.unreg c] from by simp,
            heff]
          simp
  | some props =>
    cases cur with
    | none =>
      have hr : regd = [] := by
        rcases hinv with rfl | ⟨c0, hc0, -⟩
        · rfl
        · exact Option.noConfusion hc0
      subst hr
      cases collide with
      | true =>
        refine ⟨Or.inl rfl, ?_, rfl⟩
        intro k
        show (applyEffects [] (List.take k [])).length ≤ 1
        simp [applyEffects]
      | false =>
        refine ⟨Or.inr ⟨_, rfl, rfl⟩, ?_, rfl⟩
        intro k
        show (applyEffects []
          ([MdnsEffect.reg (buildServiceInfo port pton props ips server)].take k)).length ≤ 1
        cases k with
        | zero => simp [applyEffects]
        | succ k => simp [applyEffects, applyEffect]
    | some c =>
      by_cases hd : isDifferent (some c) (buildServiceInfo port pton props ips server) = true
      · have h1 : applyEffect regd (MdnsEffect.unreg c) = [] :=
          applyEffect_unreg_self c regd hinv
        cases collide with
        | true =>
          have hout : update_mdns_run port pton (some props) ips server (some c) true
              = (some c, [MdnsEffect.unreg c]) := by
            simp [update_mdns_run, hd]
          rw [hout]
          refine ⟨?_, ?_, rfl⟩
          · show regInv (some c) (applyEffects regd [MdnsEffect.unreg c])
            rw [show applyEffects regd [MdnsEffect.unreg c]
                = applyEffect regd (MdnsEffect.unreg c) from rfl, h1]
            exact Or.inl rfl
          · intro k
            cases k with
            | zero => simpa [applyEffects] using hlen
            | succ k =>
              rw [show [MdnsEffect.unreg c].take (k + 1) = [MdnsEffect.unreg c] from by simp,
                show applyEffects regd [MdnsEffect.unreg c]
                  = applyEffect regd (MdnsEffect.unreg c) from rfl, h1]
              simp
        | false =>
          have hout : update_mdns_run port pton (some props) ips server (some c) false
              = (some (buildServiceInfo port pton props ips server),
                 [MdnsEffect.unreg c,
                  MdnsEffect.reg (buildServiceInfo port pton props ips server)]) := by
            simp [update_mdns_run, hd]
          rw [hout]
          refine ⟨?_, ?_, rfl⟩
          · show regInv (some (buildServiceInfo port pton props ips server))
              (applyEffects regd [MdnsEffect.unreg c,
                MdnsEffect.reg (buildServiceInfo port pton props ips server)])
            rw [show applyEffects regd [MdnsEffect.unreg c,
                  MdnsEffect.reg (buildServiceInfo port pton props ips server)]
                = applyEffect (applyEffect regd (MdnsEffect.unreg c))
                    (MdnsEffect.reg (buildServiceInfo port pton props ips server)) from rfl,
              h1]
            exact Or.inr ⟨_, rfl, rfl⟩
          · intro k
            match k with
            | 0 => simpa [applyEffects] using hlen
            | 1 =>
              rw [show [MdnsEffect.unreg c,
                    MdnsEffect.reg (buildServiceInfo port pton props ips server)].take 1
                  = [MdnsEffect.unreg c] from rfl,
                show applyEffects regd [MdnsEffect.unreg c]
                  = applyEffect regd (MdnsEffect.unreg c) from rfl, h1]
              simp
            | (k + 2) =>
              rw [show [MdnsEffect.unreg c,
                    MdnsEffect.reg (buildServiceInfo port pton props ips server)].take (k + 2)
                  = [MdnsEffect.unreg c,
                     MdnsEffect.reg (buildServiceInfo port pton props ips server)] from by simp,
                show applyEffects regd [MdnsEffect.unreg c,
                    MdnsEffect.reg (buildServiceInfo port pton props ips server)]
                  = applyEffect (applyEffect regd (MdnsEffect.unreg c))
                      (MdnsEffect.reg (buildServiceInfo port pton props ips server)) from rfl,
                h1]
              simp [applyEffect]
      · have hdf : isDifferent (some c) (buildServiceInfo port pton props ips server)
            = false := by
          cases hb : isDifferent (some c) (buildServiceInfo port pton props ips server)
          · rfl
          · exact absurd hb hd
        have hout : update_mdns_run port pton (some props) ips server (some c) collide
            = (some c, []) := by
          simp [update_mdns_run, hdf]
        rw [hout]
        refine ⟨hinv, ?_, rfl⟩
        intro k
        show (applyEffects regd (List.take k [])).length ≤ 1
        simpa [applyEffects] using hlen

theorem runCycles_inv (port : Nat) (pton : String → Option (List Nat)) (server : String) :
    ∀ (ins : List CycleIn) (cur : Option ServiceInfoM) (regd : List ServiceInfoM),
      regInv cur regd →
      (∀ k, (applyEffects regd
          (((runCycles port pton server cur ins).flatten).take k)).length ≤ 1)
      ∧ ((runCycles port pton server cur ins).all shapeOk = true) := by
  intro ins
  induction ins with
  | nil =>
    intro cur regd hinv
    have hlen : regd.length ≤ 1 := by
      rcases hinv with rfl | ⟨c0, -, rfl⟩ <;> simp
    refine ⟨?_, rfl⟩
    intro k
    show (applyEffects regd (List.take k [])).length ≤ 1
    simpa [applyEffects] using hlen
  | cons cyc rest ih =>
    intro cur regd hinv
    obtain ⟨hinv2, hpre, hshape⟩ :=
      update_mdns_run_cycle_inv port pton cyc.props? cyc.ips server cur cyc.collide regd hinv
    constructor
    · intro k
      have hflat : (runCycles port pton server cur (cyc :: rest)).flatten
          = (update_mdns_run port pton cyc.props? cyc.ips server cur cyc.collide).2
            ++ (runCycles port pton server
                (update_mdns_run port pton cyc.props? cyc.ips server cur cyc.collide).1
                rest).flatten := by
        simp [runCycles]
      rw [hflat, List.take_append_eq_append_take, applyEffects_append]
      by_cases hk :
        k ≤ (update_mdns_run port pton cyc.props? cyc.ips server cur cyc.collide).2.length
      · rw [Nat.sub_eq_zero_of_le hk, List.take_zero]
        exact hpre k
      · rw [List.take_of_length_le (Nat.le_of_not_le hk)]
        exact (ih _ _ hinv2).1 _
    · have hcons : runCycles port pton server cur (cyc :: rest)
          = (update_mdns_run port pton cyc.props? cyc.ips server cur cyc.collide).2
            :: runCycles port pton server
              (update_mdns_run port pton cyc.props? cyc.ips server cur cyc.collide).1 rest := by
        simp [runCycles]
      rw [hcons, List.all_cons, hshape, Bool.true_and]
      exact (ih _ _ hinv2).2

/-- C9: starting unpublished, over any sequence of cycles (any dataset
availability, sampled addresses and collision outcomes) the replayed
registration multiset never holds more than one record at any point of
the effect trace, and within each cycle a withdrawal always precedes a
registration; the concrete true→false→true availability sequence
publishes, withdraws, then republishes. -/
theorem reconciler_never_double_registers :
    ∀ (port : Nat) (pton : String → Option (List Nat)) (server : String)
      (ins : List CycleIn) (k : Nat),
      (applyEffects [] (((runCycles port pton server none ins).flatten).take k)).length ≤ 1
      ∧ ((runCycles port pton server none ins).all shapeOk = true)
      ∧ runCycles 49154 pton0 "otbr-server.local." none c9Scenario
          = [[MdnsEffect.reg c6A], [MdnsEffect.unreg c6A], [MdnsEffect.reg c6A]] := by
  intro port pton server ins k
  obtain ⟨h1, h2⟩ := runCycles_inv port pton server ins none [] (Or.inl rfl)
  exact ⟨h1 k, h2, by decide⟩

end Otbr
